import Mathlib

/-!
Verification of the delimiter scanner, AST node and render callback of the
goldmark superscript extension (superscript.go).

The scanner operates on the remaining bytes of the current line, starting at
the trigger character (the caret, byte 94), together with the rune that
precedes the trigger (or -1 as the start-of-line sentinel).  Lines are
modelled as lists of byte values, the preceding rune as an Int.  The Go
function superscriptParser.Parse is embedded as ParseR below; it returns the
scan result together with the new reader position, mirroring the calls to
block.Advance on the success path.
-/

namespace GmSuperscript

/-- Byte value of the delimiter character, the caret U+005E. -/
def caret : Nat := 94

/-- The test unicode.IsSpace(rune(b)) applied to a single byte b, as in the
loop over the content bytes in superscript.go.  For code points below 256 the
Unicode White_Space property holds exactly for tab, line feed, vertical tab,
form feed, carriage return, space, next line (133) and no-break space (160). -/
def isSpaceByte (b : Nat) : Bool :=
  b == 9 || b == 10 || b == 11 || b == 12 || b == 13 || b == 32 ||
  b == 133 || b == 160

/-- The test unicode.IsSpace on a full rune, used on the preceding character.
The listed code points are exactly the Unicode White_Space property as in the
Go unicode package range table. -/
def isSpaceRune (r : Int) : Bool :=
  r == 9 || r == 10 || r == 11 || r == 12 || r == 13 || r == 32 ||
  r == 133 || r == 160 || r == 5760 ||
  (8192 ≤ r && r ≤ 8202) || r == 8232 || r == 8233 ||
  r == 8239 || r == 8287 || r == 12288

/-- The forward scan of superscript.go lines 100 to 105: the index of the
first caret in the list, where the head of the list has index i; none when no
caret occurs.  In the Go code the loop runs over the line from index 1 and
records the first index whose byte equals the caret. -/
def findCaret : List Nat → Nat → Option Nat
  | [], _ => none
  | b :: rest, i => if b == caret then some i else findCaret rest (i + 1)

/-- Embedding of superscriptParser.Parse, superscript.go lines 76 to 150.
Inputs: the preceding rune before (from block.PrecendingCharacter, -1 at
start of line), the remaining line bytes line (from block.PeekLine, starting
at the trigger caret) and the current reader position pos.  Output: the scan
result (content bytes and consumed length, or none) paired with the reader
position after the call.  The Go local variable content = line[start:end]
with start = 1 appears here as (line.drop 1).take (e - 1).  Every rejection
in the Go code is a plain return nil with no call to block.Advance, hence the
unchanged position; the success path calls block.Advance(1) and then
block.Advance(end). -/
def ParseR (before : Int) (line : List Nat) (pos : Nat) :
    Option (List Nat × Nat) × Nat :=
  if line.length < 2 then (none, pos)
  else if isSpaceRune before || before == -1 then (none, pos)
  else if line.getD 1 0 == caret then (none, pos)
  else
    match findCaret (line.drop 1) 1 with
    | none => (none, pos)
    | some e =>
      if e ≤ 1 then (none, pos)
      else if ((line.drop 1).take (e - 1)).any isSpaceByte then (none, pos)
      else if ((line.drop 1).take (e - 1)).headD 0 == caret then (none, pos)
      else (some ((line.drop 1).take (e - 1), e + 1), pos + 1 + e)

/-- The scan result alone, at reader position 0: the match decision of
superscriptParser.Parse. -/
def Parse (before : Int) (line : List Nat) : Option (List Nat × Nat) :=
  (ParseR before line 0).1

/-- Variant of the scanner without the rejection of step 7 of the spec, the
check firstChar == caret of superscript.go lines 126 to 130; everything else
is unchanged. -/
def ParseNoStep7 (before : Int) (line : List Nat) : Option (List Nat × Nat) :=
  if line.length < 2 then none
  else if isSpaceRune before || before == -1 then none
  else if line.getD 1 0 == caret then none
  else
    match findCaret (line.drop 1) 1 with
    | none => none
    | some e =>
      if e ≤ 1 then none
      else if ((line.drop 1).take (e - 1)).any isSpaceByte then none
      else some ((line.drop 1).take (e - 1), e + 1)

/-- Variant of the scanner without the zero-length-content guard end <= start
of superscript.go lines 112 to 115 and without the firstChar == caret guard
of lines 126 to 130; everything else is unchanged. -/
def ParseNoGuards (before : Int) (line : List Nat) : Option (List Nat × Nat) :=
  if line.length < 2 then none
  else if isSpaceRune before || before == -1 then none
  else if line.getD 1 0 == caret then none
  else
    match findCaret (line.drop 1) 1 with
    | none => none
    | some e =>
      if ((line.drop 1).take (e - 1)).any isSpaceByte then none
      else some ((line.drop 1).take (e - 1), e + 1)

/-- Walk status returned by the render callback to the AST walker; the Go
callback always returns ast.WalkContinue. -/
inductive WalkStatus where
  | wsContinue
  | wsSkipChildren
  | wsStop
deriving DecidableEq, Repr

/-- Embedding of SuperscriptHTMLRenderer.renderSuperscript, superscript.go
lines 182 to 196.  The attribute list of the node is modelled as an Option,
none standing for the nil slice tested by n.Attributes() != nil.  The
external collaborator html.RenderAttributes is abstracted as the function
renderAttributes passed in; it produces the text written between the tag name
and the closing angle bracket.  The returned string is everything the
callback writes to the buffered writer during the call. -/
def renderSuperscript
    (renderAttributes : List (String × String) → String)
    (attrs : Option (List (String × String)))
    (entering : Bool) : String × WalkStatus :=
  if entering then
    match attrs with
    | some attrList =>
      ("<sup" ++ renderAttributes attrList ++ ">", WalkStatus.wsContinue)
    | none => ("<sup>", WalkStatus.wsContinue)
  else ("</sup>", WalkStatus.wsContinue)

/-- Output of the depth-first walk over one span node: the entering call,
then the literal-text child rendered by the host text renderer (abstracted as
escapeText), then the exiting call. -/
def renderSpan (renderAttributes : List (String × String) → String)
    (escapeText : List Nat → String)
    (attrs : Option (List (String × String))) (content : List Nat) : String :=
  (renderSuperscript renderAttributes attrs true).1 ++ escapeText content ++
    (renderSuperscript renderAttributes attrs false).1

theorem findCaret_ge {l : List Nat} {i e : Nat}
    (h : findCaret l i = some e) : i ≤ e := by
  induction l generalizing i with
  | nil => simp [findCaret] at h
  | cons b rest ih =>
    simp only [findCaret] at h
    split at h
    · exact (Option.some_inj.mp h) ▸ Nat.le_refl i
    · exact Nat.le_of_succ_le (ih h)

theorem findCaret_lt {l : List Nat} {i e : Nat}
    (h : findCaret l i = some e) : e < i + l.length := by
  induction l generalizing i with
  | nil => simp [findCaret] at h
  | cons b rest ih =>
    simp only [findCaret] at h
    split at h
    · cases Option.some_inj.mp h
      simp
    · have := ih h
      simp only [List.length_cons]
      omega

theorem findCaret_not_mem_take {l : List Nat} {i e : Nat}
    (h : findCaret l i = some e) : caret ∉ l.take (e - i) := by
  induction l generalizing i with
  | nil => simp
  | cons b rest ih =>
    simp only [findCaret] at h
    split at h
    · cases Option.some_inj.mp h
      simp
    · have hge : i + 1 ≤ e := findCaret_ge h
      have hsub : e - i = (e - (i + 1)) + 1 := by omega
      rw [hsub]
      simp only [List.take_succ_cons, List.mem_cons, not_or]
      refine ⟨?_, ih h⟩
      intro hb
      rename_i hne
      exact hne (by simp [hb])

theorem findCaret_getD {l : List Nat} {i e : Nat}
    (h : findCaret l i = some e) : l.getD (e - i) 0 = caret := by
  induction l generalizing i with
  | nil => simp [findCaret] at h
  | cons b rest ih =>
    simp only [findCaret] at h
    split at h
    · cases Option.some_inj.mp h
      rename_i hb
      simp only [Nat.sub_self, List.getD_cons_zero]
      exact beq_iff_eq.mp hb
    · have hge : i + 1 ≤ e := findCaret_ge h
      have hsub : e - i = (e - (i + 1)) + 1 := by omega
      rw [hsub]
      simpa using ih h

theorem findCaret_append {C rest : List Nat} (i : Nat) (h : caret ∉ C) :
    findCaret (C ++ caret :: rest) i = some (i + C.length) := by
  induction C generalizing i with
  | nil => simp [findCaret]
  | cons a C' ih =>
    simp only [List.mem_cons, not_or] at h
    have ha : (a == caret) = false := by
      rw [beq_eq_false_iff_ne]
      exact fun hc => h.1 hc.symm
    rw [List.cons_append]
    simp only [findCaret, ha, Bool.false_eq_true, if_false]
    rw [ih (i + 1) h.2]
    simp only [List.length_cons]
    congr 1
    omega

theorem take_append_left (C rest : List Nat) :
    (C ++ rest).take C.length = C := by
  induction C with
  | nil => simp
  | cons a C' ih => simp [ih]

/-- Shape of every run of the scanner: either a rejection that leaves the
reader position unchanged, or a success whose content and consumed length are
determined by the first caret found after the opening delimiter. -/
theorem ParseR_shape (b : Int) (l : List Nat) (pos : Nat) :
    ParseR b l pos = (none, pos) ∨
    ∃ e, ParseR b l pos =
        (some ((l.drop 1).take (e - 1), e + 1), pos + 1 + e) ∧
      findCaret (l.drop 1) 1 = some e ∧ 1 < e ∧
      ((l.drop 1).take (e - 1)).any isSpaceByte = false ∧ 2 ≤ l.length := by
  unfold ParseR
  split
  next h1 => left; rfl
  next h1 =>
  split
  next h2 => left; rfl
  next h2 =>
  split
  next h3 => left; rfl
  next h3 =>
  split
  next hfc => left; rfl
  next e hfc =>
  split
  next he => left; rfl
  next he =>
  split
  next hws => left; rfl
  next hws =>
  split
  next hhd => left; rfl
  next hhd =>
  right
  exact ⟨e, rfl, hfc, by omega, by simpa using hws, by omega⟩

/-- When control in the scanner reaches the closing-caret branch, the closing
index is at least 2 and the first content byte differs from the caret: the
guard of line 91 already rejected a caret at index 1, and the forward scan
starts there. -/
theorem reach_guards {l : List Nat} {e : Nat}
    (hlen : ¬ l.length < 2) (hsec : ¬ (l.getD 1 0 == caret) = true)
    (hfind : findCaret (l.drop 1) 1 = some e) :
    ¬ e ≤ 1 ∧ (((l.drop 1).take (e - 1)).headD 0 == caret) = false := by
  match l with
  | [] => simp at hlen
  | [x] => simp at hlen
  | x :: y :: t =>
    simp only [List.getD_cons_succ, List.getD_cons_zero] at hsec
    have hy : (y == caret) = false := by
      cases hyc : (y == caret) with
      | false => rfl
      | true => exact absurd hyc hsec
    simp only [List.drop_succ_cons, List.drop_zero] at hfind ⊢
    rw [show findCaret (y :: t) 1 =
          if y == caret then some 1 else findCaret t 2 from rfl, hy] at hfind
    simp only [Bool.false_eq_true, if_false] at hfind
    have h2 : 2 ≤ e := findCaret_ge hfind
    refine ⟨by omega, ?_⟩
    have : e - 1 = (e - 2) + 1 := by omega
    rw [this, List.take_succ_cons, List.headD_cons]
    exact hy

/-- The scanner agrees with the variant lacking the firstChar check on every
input. -/
theorem parse_eq_noStep7 (b : Int) (l : List Nat) :
    Parse b l = ParseNoStep7 b l := by
  unfold Parse ParseR ParseNoStep7
  by_cases h1 : l.length < 2
  · rw [if_pos h1, if_pos h1]
  rw [if_neg h1, if_neg h1]
  by_cases h2 : (isSpaceRune b || b == -1) = true
  · rw [if_pos h2, if_pos h2]
  rw [if_neg h2, if_neg h2]
  by_cases h3 : (l.getD 1 0 == caret) = true
  · rw [if_pos h3, if_pos h3]
  rw [if_neg h3, if_neg h3]
  rcases hfc : findCaret (l.drop 1) 1 with _ | e
  · rfl
  obtain ⟨hne1, hhd⟩ := reach_guards h1 h3 hfc
  dsimp only
  rw [if_neg hne1, if_neg hne1]
  by_cases hws : ((l.drop 1).take (e - 1)).any isSpaceByte = true
  · rw [if_pos hws, if_pos hws]
  rw [if_neg hws, if_neg hws]
  have hhd2 : ¬ (((l.drop 1).take (e - 1)).headD 0 == caret) = true := by
    rw [hhd]
    simp
  rw [if_neg hhd2]

/-- The scanner agrees with the variant lacking both the zero-length-content
guard and the firstChar check on every input. -/
theorem parse_eq_noGuards (b : Int) (l : List Nat) :
    Parse b l = ParseNoGuards b l := by
  unfold Parse ParseR ParseNoGuards
  by_cases h1 : l.length < 2
  · rw [if_pos h1, if_pos h1]
  rw [if_neg h1, if_neg h1]
  by_cases h2 : (isSpaceRune b || b == -1) = true
  · rw [if_pos h2, if_pos h2]
  rw [if_neg h2, if_neg h2]
  by_cases h3 : (l.getD 1 0 == caret) = true
  · rw [if_pos h3, if_pos h3]
  rw [if_neg h3, if_neg h3]
  rcases hfc : findCaret (l.drop 1) 1 with _ | e
  · rfl
  obtain ⟨hne1, hhd⟩ := reach_guards h1 h3 hfc
  dsimp only
  rw [if_neg hne1]
  by_cases hws : ((l.drop 1).take (e - 1)).any isSpaceByte = true
  · rw [if_pos hws, if_pos hws]
  rw [if_neg hws, if_neg hws]
  have hhd2 : ¬ (((l.drop 1).take (e - 1)).headD 0 == caret) = true := by
    rw [hhd]
    simp
  rw [if_neg hhd2]

/-- C1: for every invocation at the first caret of a line of the form
X caret C caret, where the preceding character X is a non-whitespace rune and
C is one or more non-whitespace, non-delimiter bytes, the scanner matches and
returns content exactly C with consumed length C.length + 2. -/
theorem C1_wellformed_span_matches (X : Int) (C : List Nat)
    (hX : isSpaceRune X = false) (hX1 : X ≠ -1) (hC : C ≠ [])
    (hcar : caret ∉ C) (hws : C.any isSpaceByte = false) :
    Parse X (caret :: C ++ [caret]) = some (C, C.length + 2) := by
  obtain ⟨a, C', rfl⟩ := List.exists_cons_of_ne_nil hC
  have hmem : ¬ caret = a ∧ caret ∉ C' := by simpa using hcar
  have ha : (a == caret) = false := by
    rw [beq_eq_false_iff_ne]
    exact fun hc => hmem.1 hc.symm
  unfold Parse ParseR
  rw [if_neg (by
    simp only [List.length_cons, List.length_append, List.length_nil]
    omega)]
  rw [if_neg (by simp [hX, hX1])]
  have h3 : ¬ ((caret :: (a :: C') ++ [caret]).getD 1 0 == caret) = true := by
    have hg : (caret :: (a :: C') ++ [caret]).getD 1 0 = a := rfl
    rw [hg, ha]
    simp
  rw [if_neg h3]
  have hdrop : (caret :: (a :: C') ++ [caret]).drop 1 =
      (a :: C') ++ caret :: [] := rfl
  rw [hdrop, findCaret_append 1 hcar]
  dsimp only
  rw [if_neg (by
    simp only [List.length_cons]
    omega)]
  have hidx : 1 + (a :: C').length - 1 = (a :: C').length := by omega
  rw [hidx, take_append_left]
  rw [if_neg (by rw [hws]; simp)]
  rw [if_neg (by simp only [List.headD_cons]; rw [ha]; simp)]
  have hlen2 : 1 + (a :: C').length + 1 = (a :: C').length + 2 := by omega
  rw [hlen2]

/-- Witness for C1 at the concrete input x caret 2 caret. -/
theorem C1_witness :
    Parse 120 (caret :: [50] ++ [caret]) =
      some ([50], ([50] : List Nat).length + 2) :=
  C1_wellformed_span_matches 120 [50] (by decide) (by decide) (by decide)
    (by decide) (by decide)

/-- C2: when the bytes strictly between the opening caret and the first
closing caret contain at least one whitespace byte, the scanner rejects,
whatever the preceding character and whatever follows the closing caret. -/
theorem C2_whitespace_content_rejected (X : Int) (C rest : List Nat)
    (hcar : caret ∉ C) (hws : C.any isSpaceByte = true) :
    Parse X (caret :: C ++ caret :: rest) = none := by
  rcases ParseR_shape X (caret :: C ++ caret :: rest) 0 with
    hsh | ⟨e, hsh, hfc, he1, hwsf, hlen⟩
  · unfold Parse
    rw [hsh]
  · exfalso
    have hdrop : (caret :: C ++ caret :: rest).drop 1 = C ++ caret :: rest := rfl
    rw [hdrop] at hfc hwsf
    rw [findCaret_append 1 hcar] at hfc
    have he : 1 + C.length = e := Option.some_inj.mp hfc
    subst he
    rw [show 1 + C.length - 1 = C.length from by omega,
      take_append_left] at hwsf
    rw [hws] at hwsf
    simp at hwsf

/-- Witness for C2 at the concrete input x caret 2 space 3 caret. -/
theorem C2_witness :
    Parse 120 (caret :: [50, 32, 51] ++ caret :: []) = none :=
  C2_whitespace_content_rejected 120 [50, 32, 51] [] (by decide) (by decide)

/-- C3: whenever the preceding character is a whitespace rune or the
start-of-line sentinel -1, the scanner returns no match, for every line and
every reader position. -/
theorem C3_preceded_by_space_rejected (b : Int) (l : List Nat) (pos : Nat)
    (h : isSpaceRune b = true ∨ b = -1) :
    (ParseR b l pos).1 = none := by
  unfold ParseR
  by_cases h1 : l.length < 2
  · rw [if_pos h1]
  rw [if_neg h1]
  have h2 : (isSpaceRune b || b == -1) = true := by
    rcases h with h | h
    · simp [h]
    · simp [h]
  rw [if_pos h2]

/-- Witness for C3 at a caret preceded by a space and at line start. -/
theorem C3_witness :
    (ParseR 32 [94, 50, 94] 0).1 = none ∧ (ParseR (-1) [94, 50, 94] 0).1 = none :=
  ⟨C3_preceded_by_space_rejected 32 [94, 50, 94] 0 (Or.inl (by decide)),
   C3_preceded_by_space_rejected (-1) [94, 50, 94] 0 (Or.inr (by decide))⟩

/-- C4: a caret immediately after the opening delimiter is never claimed as a
superscript opening, and no successful scan ever carries empty content. -/
theorem C4_doubled_delimiter_rejected :
    (∀ (b : Int) (l : List Nat) (pos : Nat),
        l.getD 1 0 = caret → (ParseR b l pos).1 = none) ∧
    (∀ (b : Int) (l : List Nat) (pos : Nat) (c : List Nat) (k : Nat),
        (ParseR b l pos).1 = some (c, k) → c ≠ []) := by
  constructor
  · intro b l pos h
    unfold ParseR
    by_cases h1 : l.length < 2
    · rw [if_pos h1]
    rw [if_neg h1]
    by_cases h2 : (isSpaceRune b || b == -1) = true
    · rw [if_pos h2]
    rw [if_neg h2]
    rw [if_pos (by rw [h]; simp)]
  · intro b l pos c k h
    rcases ParseR_shape b l pos with hsh | ⟨e, hsh, hfc, he1, hws, hlen⟩
    · rw [hsh] at h
      simp at h
    · rw [hsh] at h
      simp only [Option.some_inj, Prod.mk.injEq] at h
      obtain ⟨hc, hk⟩ := h
      cases hd : l.drop 1 with
      | nil =>
        rw [hd] at hfc
        simp [findCaret] at hfc
      | cons y t =>
        rw [hd] at hc
        rw [show e - 1 = (e - 2) + 1 from by omega,
          List.take_succ_cons] at hc
        subst hc
        simp

/-- Witness for C4: rejection of x caret caret 2 caret, and non-empty content
of the successful scan of x caret 2 caret. -/
theorem C4_witness :
    (ParseR 120 [94, 94, 50, 94] 0).1 = none ∧ ([50] : List Nat) ≠ [] :=
  ⟨C4_doubled_delimiter_rejected.1 120 [94, 94, 50, 94] 0 (by decide),
   C4_doubled_delimiter_rejected.2 120 [94, 50, 94] 0 [50] 3 (by decide)⟩

/-- C5: every rejection of the scanner is a plain no-match value and leaves
the reader position exactly where it was: no byte is consumed. -/
theorem C5_rejection_consumes_nothing (b : Int) (l : List Nat) (pos : Nat)
    (h : (ParseR b l pos).1 = none) : (ParseR b l pos).2 = pos := by
  rcases ParseR_shape b l pos with hsh | ⟨e, hsh, _⟩
  · rw [hsh]
  · rw [hsh] at h
    simp at h

/-- Witness for C5 at the unterminated input x caret 2. -/
theorem C5_witness : (ParseR 120 [94, 50] 0).2 = 0 :=
  C5_rejection_consumes_nothing 120 [94, 50] 0 (by decide)

/-- C6: every successful scan is terminated by the first caret after the
opening delimiter: the content contains no caret, the byte at the consumed
boundary is the closing caret, the content is exactly the bytes before it,
and nothing beyond the closing caret is consumed. -/
theorem C6_first_close_terminates (b : Int) (l : List Nat) (pos : Nat)
    (c : List Nat) (k : Nat) (h : (ParseR b l pos).1 = some (c, k)) :
    caret ∉ c ∧ (l.drop 1).getD (k - 2) 0 = caret ∧
      c = (l.drop 1).take (k - 2) ∧ k ≤ l.length := by
  rcases ParseR_shape b l pos with hsh | ⟨e, hsh, hfc, he1, hws, hlen⟩
  · rw [hsh] at h
    simp at h
  · rw [hsh] at h
    simp only [Option.some_inj, Prod.mk.injEq] at h
    obtain ⟨hc, hk⟩ := h
    have hk2 : k - 2 = e - 1 := by omega
    subst hc
    refine ⟨?_, ?_, ?_, ?_⟩
    · have := findCaret_not_mem_take hfc
      simpa using this
    · rw [hk2]
      have := findCaret_getD hfc
      simpa using this
    · rw [hk2]
    · have hlt := findCaret_lt hfc
      rw [List.length_drop] at hlt
      omega

/-- Witness for C6 at the concrete input x caret 2 caret caret, whose second
closing caret is left unconsumed. -/
theorem C6_witness :
    caret ∉ (([94, 50, 94, 94] : List Nat).drop 1).take (3 - 2) ∧
      (([94, 50, 94, 94] : List Nat).drop 1).getD (3 - 2) 0 = caret ∧
      (([94, 50, 94, 94] : List Nat).drop 1).take (3 - 2) =
        (([94, 50, 94, 94] : List Nat).drop 1).take (3 - 2) ∧
      3 ≤ ([94, 50, 94, 94] : List Nat).length :=
  C6_first_close_terminates 120 [94, 50, 94, 94] 0
    ((([94, 50, 94, 94] : List Nat).drop 1).take (3 - 2)) 3 (by decide)

/-- C7 counterexample: no input at all, in particular none containing three
or more consecutive carets, makes the scanner with the firstChar check of
step 7 behave differently from the scanner without it, refuting the claimed
existence of such an input. -/
theorem C7_no_distinguishing_input :
    ¬ ∃ (b : Int) (l : List Nat),
        (∃ s t, s ++ [caret, caret, caret] ++ t = l) ∧
        Parse b l ≠ ParseNoStep7 b l := by
  rintro ⟨b, l, _, hne⟩
  exact hne (parse_eq_noStep7 b l)

/-- C7 amended: the step 7 rejection of a content whose first byte is the
delimiter is fully redundant: on every input, with or without three or more
consecutive delimiters, the scanner with the check and the scanner without it
return the same result. -/
theorem C7_step7_fully_redundant (b : Int) (l : List Nat) :
    Parse b l = ParseNoStep7 b l :=
  parse_eq_noStep7 b l

/-- C8: the scanner is total and its consumption is bounded by the length of
the current line: on every preceding character, line and position it returns
a result, never moves the reader backwards, and never advances it past the
end of the line. -/
theorem C8_total_and_bounded (b : Int) (l : List Nat) (pos : Nat) :
    ∃ res p, ParseR b l pos = (res, p) ∧ pos ≤ p ∧ p ≤ pos + l.length := by
  rcases ParseR_shape b l pos with hsh | ⟨e, hsh, hfc, he1, hws, hlen⟩
  · exact ⟨none, pos, hsh, Nat.le_refl pos, Nat.le_add_right pos l.length⟩
  · refine ⟨_, _, hsh, by omega, ?_⟩
    have hlt := findCaret_lt hfc
    rw [List.length_drop] at hlt
    omega

/-- C9: the render callback writes exactly the bare opening tag on entering a
node without attributes and exactly the closing tag on exiting any node, so a
span with content C renders as the opening tag, the escaped content and the
closing tag; with attributes it writes the opening tag around the filtered
attribute text. -/
theorem C9_render_tags (f : List (String × String) → String)
    (esc : List Nat → String) (C : List Nat) (al : List (String × String)) :
    renderSuperscript f none true = ("<sup>", WalkStatus.wsContinue) ∧
    (∀ a : Option (List (String × String)),
        renderSuperscript f a false = ("</sup>", WalkStatus.wsContinue)) ∧
    renderSpan f esc none C = "<sup>" ++ esc C ++ "</sup>" ∧
    renderSuperscript f (some al) true =
      ("<sup" ++ f al ++ ">", WalkStatus.wsContinue) :=
  ⟨rfl, fun _ => rfl, rfl, rfl⟩

/-- C10: the zero-length-content guard and the firstChar guard are dead code:
removing both of them leaves the result of the scanner unchanged on every
input. -/
theorem C10_guards_removable (b : Int) (l : List Nat) :
    Parse b l = ParseNoGuards b l :=
  parse_eq_noGuards b l

end GmSuperscript
